import Mathlib

set_option maxRecDepth 40000

/-!
# Verification of the finance-tracker filtering / aggregation logic

Shallow embedding of `src/app.py` (a Flask + SQLAlchemy personal finance
tracker).  Database rows become Lean structures, SQLAlchemy queries become
list operations, SQL `Float` amounts are embedded as exact rationals `ℚ`,
and request handlers become pure functions from a database state and the
request parameters to a result.  Fallible paths (an unhandled `ValueError`
from `float(...)` on a malformed amount filter, or an `AttributeError` from
dereferencing a `None` category) are modelled with `Option` / an explicit
`exn` outcome.

Primary keys (`Category.id`, `Expense.id`, `User.id`) are unique in the
relational store, so foreign-key dereferences are modelled with `List.find?`
over the id.

String manipulation (strip, split, parsing) is done over `List Char` with
structural recursion so that every definition evaluates inside the kernel.
-/

/-- A calendar date, as produced by `datetime.strptime(s, '%Y-%m-%d').date()`. -/
structure Date where
  y : Nat
  m : Nat
  d : Nat
deriving DecidableEq

/-- `datetime.date` ordering (lexicographic on year, month, day). -/
def dateLe (a b : Date) : Bool :=
  (a.y < b.y) || (a.y == b.y && (a.m < b.m || (a.m == b.m && a.d ≤ b.d)))

/-- Row of the `category` table (`class Category(db.Model)`). -/
structure Category where
  id : Nat
  name : String
  user_id : Nat
deriving DecidableEq

/-- Row of the `expense` table (`class Expense(db.Model)`).  `amount` is a SQL
`Float` embedded as an exact rational; `category_id` is nullable. -/
structure Expense where
  id : Nat
  description : String
  amount : ℚ
  category_id : Option Nat
  date : Date
  user_id : Nat
deriving DecidableEq

/-- The relational store: the `category` and `expense` tables.  (The `user`
table plays no role in the verified handlers beyond the id of the
authenticated `current_user`, which is passed separately.) -/
structure DB where
  categories : List Category
  expenses : List Expense
deriving DecidableEq

/-- Python `str.isspace` on the characters `str.strip()` removes. -/
def isSpaceChar (c : Char) : Bool :=
  c == ' ' || c == '\t' || c == '\n' || c == '\r' || c == '\x0b' || c == '\x0c'

/-- Model of Python `str.strip()`: drop whitespace from both ends. -/
def pyStrip (s : String) : String :=
  ⟨((s.data.dropWhile isSpaceChar).reverse.dropWhile isSpaceChar).reverse⟩

/-- Split a character list at every occurrence of `c` (the behaviour of
`str.split('-')` on the separators the handlers use). -/
def splitOnChar (c : Char) : List Char → List (List Char)
  | [] => [[]]
  | x :: xs =>
    match splitOnChar c xs with
    | [] => if x == c then [[], []] else [[x]]
    | h :: t => if x == c then [] :: h :: t else (x :: h) :: t

def isDigitList (l : List Char) : Bool :=
  l.length > 0 && l.all Char.isDigit

/-- Value of a (known-)digit character list. -/
def natOfDigits (l : List Char) : Nat :=
  l.foldl (fun n c => n * 10 + (c.toNat - 48)) 0

def isLeap (y : Nat) : Bool :=
  (y % 4 == 0 && y % 100 != 0) || y % 400 == 0

def daysInMonth (y m : Nat) : Nat :=
  if m == 2 then (if isLeap y then 29 else 28)
  else if m == 4 || m == 6 || m == 9 || m == 11 then 30
  else 31

/-- Model of `parse_date` (`src/app.py:118`): `datetime.strptime(s, '%Y-%m-%d')`
returning `None` for the empty string or any `ValueError`.  CPython's
`%Y` matches exactly four digits; `%m` and `%d` match one or two digits, and
the `datetime` constructor then validates the calendar date. -/
def parse_date (s : String) : Option Date :=
  match splitOnChar '-' s.data with
  | [ys, ms, ds] =>
    if ys.length == 4 && isDigitList ys
        && (ms.length == 1 || ms.length == 2) && isDigitList ms
        && (ds.length == 1 || ds.length == 2) && isDigitList ds then
      let y := natOfDigits ys
      let m := natOfDigits ms
      let d := natOfDigits ds
      if 1 ≤ y && 1 ≤ m && m ≤ 12 && 1 ≤ d && d ≤ daysInMonth y m then
        some ⟨y, m, d⟩
      else none
    else none
  | _ => none

/-- Restriction of Python `float(s)` to plain decimal literals: optional
surrounding whitespace, optional sign, digits with an optional fractional
part (`"12"`, `"12."`, `".5"`, `"-5"`, ...).  `float()` additionally accepts
exponent forms, underscores and `inf` / `nan`; the complete grammar is
modelled by `pyFloatFull` below.  The dashboard/export filter stages keep
this restricted domain: their theorems only condition on a successfully
parsed finite bound, and a non-finite bound in a SQL comparison behaves
backend-dependently (SQLite coerces NaN to NULL, PostgreSQL orders NaN above
every value), so those inputs are left out of the rational query model. -/
def pyFloat (s : String) : Option ℚ :=
  let t := (pyStrip s).data
  let signed : ℚ × List Char :=
    match t with
    | '-' :: rest => (-1, rest)
    | '+' :: rest => (1, rest)
    | _ => (1, t)
  match splitOnChar '.' signed.2 with
  | [ip] =>
    if isDigitList ip then some (signed.1 * (natOfDigits ip : ℚ)) else none
  | [ip, fp] =>
    if (ip.length + fp.length > 0) && ip.all Char.isDigit && fp.all Char.isDigit then
      some (signed.1 * ((natOfDigits ip : ℚ) + (natOfDigits fp : ℚ) / (10 ^ fp.length)))
    else none
  | _ => none

/-- A value produced by Python `float(...)`: a finite value (exact as a
rational for every decimal literal), one of the two infinities, or NaN. -/
inductive PyNum where
  | fin (q : ℚ)
  | inf
  | ninf
  | nan
deriving DecidableEq

/-- Python `x <= 0` on a float: True for -inf and finite non-positive values;
False for +inf and — every ordered comparison with NaN being False — for NaN. -/
def PyNum.le0 : PyNum → Bool
  | .fin q => decide (q ≤ 0)
  | .inf => false
  | .ninf => true
  | .nan => false

/-- Python `x > 0` on a float: False for NaN. -/
def PyNum.pos : PyNum → Bool
  | .fin q => decide (0 < q)
  | .inf => true
  | .ninf => false
  | .nan => false

/-- Continuation of a digit group after its first digit: digits with single
underscores strictly between digits. -/
def udRun : List Char → Bool
  | [] => true
  | ['_'] => false
  | '_' :: c :: rest => c.isDigit && udRun (c :: rest)
  | c :: rest => c.isDigit && udRun rest

/-- A digit group of a Python numeric literal: nonempty digits with
underscores neither leading, trailing nor doubled (`1_000` yes; `_1`, `1_`,
`1__0` no). -/
def underscoreDigits (l : List Char) : Bool :=
  match l with
  | [] => false
  | c :: rest => c.isDigit && udRun rest

/-- Value of a digit group, ignoring its underscores. -/
def natOfUDigits (l : List Char) : Nat :=
  natOfDigits (l.filter (fun c => c != '_'))

/-- The mantissa of a decimal float literal: `digits`, `digits.`, `.digits`
or `digits.digits`, underscores between digits only.  Yields the scaled
integer value together with the number of fractional digits, so `"12.5"`
gives `(125, 1)`, denoting 125 / 10^1. -/
def parseDecMantissa (m : List Char) : Option (Nat × Nat) :=
  match splitOnChar '.' m with
  | [ip] =>
    if underscoreDigits ip then some (natOfUDigits ip, 0) else none
  | [ip, fp] =>
    if (ip.isEmpty || underscoreDigits ip) && (fp.isEmpty || underscoreDigits fp)
        && !(ip.isEmpty && fp.isEmpty) then
      some (natOfUDigits ip * 10 ^ (fp.filter Char.isDigit).length
        + natOfUDigits fp, (fp.filter Char.isDigit).length)
    else none
  | _ => none

/-- The exponent of a decimal float literal: optional sign, then a digit
group; yields (negative?, magnitude). -/
def parseExponent (ex : List Char) : Option (Bool × Nat) :=
  let se : Bool × List Char :=
    match ex with
    | '-' :: r => (true, r)
    | '+' :: r => (false, r)
    | _ => (false, ex)
  if underscoreDigits se.2 then some (se.1, natOfUDigits se.2) else none

/-- Full model of Python `float(s)` (CPython `float_from_string`) on ASCII
input: optional surrounding whitespace and sign; `inf` / `infinity` / `nan`
case-insensitively; otherwise a decimal literal with optional fraction,
optional `e`/`E` exponent and underscores between digits.  Every accepted
decimal literal denotes an exact rational; `inf` / `nan` give the non-finite
IEEE values. -/
def pyFloatFull (s : String) : Option PyNum :=
  let t := (pyStrip s).data
  let signed : Bool × List Char :=
    match t with
    | '-' :: r => (true, r)
    | '+' :: r => (false, r)
    | _ => (false, t)
  let low := signed.2.map Char.toLower
  let sgn : Nat → Int := fun n => if signed.1 then -(n : Int) else (n : Int)
  if low = ['i', 'n', 'f'] || low = ['i', 'n', 'f', 'i', 'n', 'i', 't', 'y'] then
    some (if signed.1 then .ninf else .inf)
  else if low = ['n', 'a', 'n'] then
    some .nan
  else
    let combine : Nat × Nat → Bool × Nat → PyNum := fun md ez =>
      let kneg := md.2 + (if ez.1 then ez.2 else 0)
      let kpos := if ez.1 then 0 else ez.2
      if kneg ≤ kpos then .fin ((sgn (md.1 * 10 ^ (kpos - kneg)) : Int) : ℚ)
      else .fin (mkRat (sgn md.1) (10 ^ (kneg - kpos)))
    match splitOnChar 'e' low with
    | [m] => (parseDecMantissa m).map (fun md => combine md (false, 0))
    | [m, ex] =>
      match parseDecMantissa m, parseExponent ex with
      | some md, some ez => some (combine md ez)
      | _, _ => none
    | _ => none

/-- Floor of a rational (kernel-computable: Euclidean division of the
numerator by the positive denominator). -/
def ratFloor (q : ℚ) : ℤ :=
  q.num.ediv q.den

/-- Round-half-to-even to an integer, the tie-breaking rule of Python's
built-in `round`. -/
def roundHalfEven (q : ℚ) : ℤ :=
  let f := ratFloor q
  let r := q - (f : ℚ)
  if r < 1 / 2 then f
  else if (1 : ℚ) / 2 < r then f + 1
  else if f.emod 2 = 0 then f else f + 1

/-- Model of Python `round(x, 2)`. -/
def round2 (q : ℚ) : ℚ :=
  (roundHalfEven (q * 100) : ℚ) / 100

/-- Exactly two decimal digits (the fractional field of a `%.2f` rendering). -/
def twoDigits (n : Nat) : String :=
  String.mk [Nat.digitChar (n / 10 % 10), Nat.digitChar (n % 10)]

/-- Decimal rendering of a natural number (kernel-computable). -/
def natToStr (n : Nat) : String :=
  ⟨(Nat.toDigits 10 n)⟩

/-- Model of the f-string conversion `f"{x:.2f}"`: the value rounded to two
decimals (half-to-even), rendered with exactly two digits after the point. -/
def formatAmount2 (q : ℚ) : String :=
  let n := roundHalfEven (q * 100)
  let sgn := if n < 0 then "-" else ""
  let m := n.natAbs
  sgn ++ natToStr (m / 100) ++ "." ++ twoDigits (m % 100)

def pad2 (n : Nat) : String :=
  if n < 10 then "0" ++ natToStr n else natToStr n

def pad4 (n : Nat) : String :=
  if n < 10 then "000" ++ natToStr n
  else if n < 100 then "00" ++ natToStr n
  else if n < 1000 then "0" ++ natToStr n
  else natToStr n

/-- Model of `datetime.date.isoformat()`. -/
def isoformat (d : Date) : String :=
  pad4 d.y ++ "-" ++ pad2 d.m ++ "-" ++ pad2 d.d

/-- Sum of the amounts of a list of expenses (`sum(e.amount for e in expenses)`). -/
def sumAmounts (l : List Expense) : ℚ :=
  (l.map Expense.amount).sum

/-- "later or equal date": the row order produced by
`ORDER BY expense.date DESC` (SQL fixes only the relative order of rows with
distinct dates; ties are in unspecified order). -/
def dateGe (a b : Expense) : Prop :=
  dateLe b.date a.date = true

instance : DecidableRel dateGe :=
  fun a b => Bool.decEq (dateLe b.date a.date) true

theorem dateLe_iff (a b : Date) :
    dateLe a b = true ↔
      a.y < b.y ∨ (a.y = b.y ∧ (a.m < b.m ∨ (a.m = b.m ∧ a.d ≤ b.d))) := by
  simp [dateLe]

instance : IsTotal Expense dateGe :=
  ⟨by intro a b; unfold dateGe; rw [dateLe_iff, dateLe_iff]; omega⟩

instance : IsTrans Expense dateGe :=
  ⟨by intro a b c hab hbc; unfold dateGe at *
      rw [dateLe_iff] at *; omega⟩

/-- `q.order_by(Expense.date.desc()).all()`: the rows sorted by date,
descending. -/
def sortDateDesc (l : List Expense) : List Expense :=
  List.insertionSort dateGe l

/-- The ORM relationship `expense.category` followed by `.name`: resolve the
nullable foreign key against the `category` table. -/
def expenseCategoryName (db : DB) (e : Expense) : Option String :=
  e.category_id.bind (fun cid =>
    (db.categories.find? (fun c => c.id == cid)).map Category.name)

example : parse_date "2024-01-31" = some ⟨2024, 1, 31⟩ := by decide
example : parse_date "2024-02-30" = none := by decide
example : parse_date "" = none := by decide
example : parse_date "2024-1-5" = some ⟨2024, 1, 5⟩ := by decide
example : parse_date "garbage" = none := by decide
example : pyFloat "12.5" = some (25 / 2 : ℚ) := by with_unfolding_all decide
example : pyFloat "-5" = some (-5 : ℚ) := by with_unfolding_all decide
example : pyFloat "0" = some 0 := by with_unfolding_all decide
example : pyFloat "abc" = none := by with_unfolding_all decide
example : pyFloat "" = none := by with_unfolding_all decide
example : pyFloatFull "12.5" = some (PyNum.fin (25 / 2)) := by
  with_unfolding_all decide
example : pyFloatFull "1e3" = some (PyNum.fin 1000) := by
  with_unfolding_all decide
example : pyFloatFull "1E-2" = some (PyNum.fin (1 / 100)) := by
  with_unfolding_all decide
example : pyFloatFull "1_000" = some (PyNum.fin 1000) := by
  with_unfolding_all decide
example : pyFloatFull "-Infinity" = some PyNum.ninf := by
  with_unfolding_all decide
example : pyFloatFull "nan" = some PyNum.nan := by with_unfolding_all decide
example : pyFloatFull "1__0" = none := by with_unfolding_all decide
example : pyFloatFull "1e" = none := by with_unfolding_all decide
example : pyFloatFull "abc" = none := by with_unfolding_all decide
example : round2 (25 / 2) = 25 / 2 := by with_unfolding_all decide
example : round2 (10001 / 1000) = 10 := by with_unfolding_all decide
example : formatAmount2 (25 / 2) = "12.50" := by with_unfolding_all decide
example : isoformat ⟨2024, 1, 5⟩ = "2024-01-05" := by decide
example : pyStrip "  a b " = "a b" := by decide

/-- The `GROUP BY`-joined rows of the category chart (`src/app.py:133`):
`SELECT category.name, sum(expense.amount) FROM expense JOIN category ON
expense.category_id = category.id WHERE expense.user_id = :uid GROUP BY
category.name`.  Note the join does not restrict `category.user_id`, and the
grouping key is the category *name*. -/
def cat_rows (db : DB) (uid : Nat) : List (String × ℚ) :=
  let joined := (db.expenses.filter (fun e => e.user_id == uid)).filterMap
    (fun e => (expenseCategoryName db e).map (fun n => (n, e.amount)))
  (joined.map Prod.fst).dedup.map
    (fun n => (n, ((joined.filter (fun r => r.1 == n)).map Prod.snd).sum))

/-- `cat_labels = [c for c, _ in cat_rows]` (`src/app.py:140`). -/
def cat_labels (db : DB) (uid : Nat) : List String :=
  (cat_rows db uid).map Prod.fst

/-- `cat_values = [round(float((s or 0)), 2) for _, s in cat_rows]`
(`src/app.py:141`). -/
def cat_values (db : DB) (uid : Nat) : List ℚ :=
  (cat_rows db uid).map (fun r => round2 r.2)

/-- The `GROUP BY`-rows of the day chart (`src/app.py:144`): the user's
expenses grouped by `expense.date`, with summed amounts. -/
def day_rows (db : DB) (uid : Nat) : List (Date × ℚ) :=
  let mine := db.expenses.filter (fun e => e.user_id == uid)
  (mine.map Expense.date).dedup.map
    (fun d => (d, sumAmounts (mine.filter (fun e => e.date == d))))

/-- `day_labels = [d.isoformat() for d, _ in day_rows]` (`src/app.py:149`). -/
def day_labels (db : DB) (uid : Nat) : List String :=
  (day_rows db uid).map (fun r => isoformat r.1)

/-- `day_values = [round(float((s or 0)), 2) for _, s in day_rows]`
(`src/app.py:150`). -/
def day_values (db : DB) (uid : Nat) : List ℚ :=
  (day_rows db uid).map (fun r => round2 r.2)

/-- The query-string parameters accepted by `/dashboard` and `/export.csv`
(`request.args.get(...)` returns `None` for an absent parameter). -/
structure Params where
  clear_filters : Option String := none
  start : Option String := none
  end_ : Option String := none
  min_amount : Option String := none
  max_amount : Option String := none
  filter_category : Option String := none
deriving DecidableEq

/-- The user-id / date-range / amount-range stages shared verbatim by the
`dashboard` (`src/app.py:182-195`) and `export_csv` (`src/app.py:431-444`)
handlers.  `none` models the unhandled `ValueError` raised by
`float(min_amount)` / `float(max_amount)` on a malformed non-empty amount
bound (HTTP 500, nothing rendered). -/
def filterUserDateAmount (db : DB) (uid : Nat) (startS endS minS maxS : String) :
    Option (List Expense) :=
  let sd := parse_date startS
  let ed := parse_date endS
  let q0 := db.expenses.filter (fun e => e.user_id == uid)
  let q1 := match sd with
    | some d => q0.filter (fun e => dateLe d e.date)
    | none => q0
  let q2 := match ed with
    | some d => q1.filter (fun e => dateLe e.date d)
    | none => q1
  match (if minS = "" then some none else (pyFloat minS).map some : Option (Option ℚ)) with
  | none => none
  | some mo =>
    let q3 := match mo with
      | some m => q2.filter (fun e => decide (m ≤ e.amount))
      | none => q2
    match (if maxS = "" then some none else (pyFloat maxS).map some : Option (Option ℚ)) with
    | none => none
    | some Mo =>
      some (match Mo with
        | some M => q3.filter (fun e => decide (e.amount ≤ M))
        | none => q3)

/-- What the `/dashboard` handler hands to `render_template`
(the pieces the claims speak about). -/
structure DashResult where
  expenses : List Expense
  total : ℚ
  catLabels : List String
  catValues : List ℚ
  dayLabels : List String
  dayValues : List ℚ
deriving DecidableEq

/-- Model of the `/dashboard` handler (`src/app.py:126-226`) for the
authenticated user `uid`.  `none` models the unhandled `ValueError` on a
malformed non-empty amount bound.  The category filter is
`q.join(Category).filter(Category.name == selected_category)`: an inner join
along the `category_id` foreign key, i.e. it keeps the expenses whose own
category's name equals the selected string. -/
def dashboard (db : DB) (uid : Nat) (p : Params) : Option DashResult :=
  let clear := p.clear_filters == some "true"
  if clear then
    let es := sortDateDesc (db.expenses.filter (fun e => e.user_id == uid))
    some { expenses := es, total := round2 (sumAmounts es),
           catLabels := cat_labels db uid, catValues := cat_values db uid,
           dayLabels := day_labels db uid, dayValues := day_values db uid }
  else
    let startS := pyStrip (p.start.getD "")
    let endS := pyStrip (p.end_.getD "")
    let minS := pyStrip (p.min_amount.getD "")
    let maxS := pyStrip (p.max_amount.getD "")
    let selc := pyStrip (p.filter_category.getD "")
    match filterUserDateAmount db uid startS endS minS maxS with
    | none => none
    | some q =>
      let q5 := if selc = "" then q
        else q.filter (fun e => expenseCategoryName db e == some selc)
      let es := sortDateDesc q5
      some { expenses := es, total := round2 (sumAmounts es),
             catLabels := cat_labels db uid, catValues := cat_values db uid,
             dayLabels := day_labels db uid, dayValues := day_values db uid }

/-- The rows selected by `/export.csv` (`src/app.py:431-451`).  Its category
stage is `q.filter(Category.name == filter_category)` with **no join**
(`src/app.py:448`): SQLAlchemy emits an implicit cross join with the whole
`category` table, so an expense survives the stage exactly when *some*
category row (of any user, unrelated to the expense) carries that name; the
legacy `Query` API deduplicates full-entity rows, so each surviving expense
appears once. -/
def exportExpenses (db : DB) (uid : Nat) (p : Params) : Option (List Expense) :=
  let startS := pyStrip (p.start.getD "")
  let endS := pyStrip (p.end_.getD "")
  let minS := pyStrip (p.min_amount.getD "")
  let maxS := pyStrip (p.max_amount.getD "")
  let fc := pyStrip (p.filter_category.getD "")
  match filterUserDateAmount db uid startS endS minS maxS with
  | none => none
  | some q =>
    let q5 := if fc = "" then q
      else if db.categories.any (fun c => c.name == fc) then q else []
    some (sortDateDesc q5)

/-- One CSV data line (`src/app.py:456`):
`f"{e.date.isoformat()}, {e.description}, {e.category.name}, {e.amount:.2f}"`.
`none` models the `AttributeError` on `e.category.name` when the expense has
no (resolvable) category. -/
def csvLine (db : DB) (e : Expense) : Option String :=
  (expenseCategoryName db e).map (fun cn =>
    isoformat e.date ++ ", " ++ e.description ++ ", " ++ cn ++ ", " ++
      formatAmount2 e.amount)

/-- Collect a list of options, failing if any entry fails. -/
def optList {α : Type} : List (Option α) → Option (List α)
  | [] => some []
  | none :: _ => none
  | some a :: rest => (optList rest).map (fun l => a :: l)

/-- Model of the `/export.csv` handler (`src/app.py:423-469`): the CSV text
and the attachment filename.  The filename uses the *raw stripped* parameter
strings (`start_str or 'all'`), not the parsed dates. -/
def export_csv (db : DB) (uid : Nat) (p : Params) : Option (String × String) :=
  match exportExpenses db uid p with
  | none => none
  | some es =>
    match optList (es.map (csvLine db)) with
    | none => none
    | some ls =>
      let startS := pyStrip (p.start.getD "")
      let endS := pyStrip (p.end_.getD "")
      let fname := "expenses_" ++ (if startS = "" then "all" else startS)
        ++ "_to_" ++ (if endS = "" then "all" else endS) ++ ".csv"
      some (String.intercalate "\n"
        ("date,description,category,amount" :: ls), fname)

/-- How a mutating handler returns:
`committed` - validation passed, `db.session.commit()` ran;
`committedNonFinite` - validation passed although the parsed float amount is
+inf or NaN (both defeat the `amount <= 0` test) and the handler commits; the
row's float value has no rational image and what the storage backend then
keeps is backend-specific (SQLite coerces NaN to NULL, PostgreSQL stores
NaN), so the rational store model records the acceptance in this outcome and
leaves the modelled rows unchanged;
`rejected`  - a flash + redirect before any write;
`http404`   - `get_or_404` aborted with 404;
`exn`       - an unhandled Python exception (no commit, state kept). -/
inductive Outcome where
  | committed
  | committedNonFinite
  | rejected
  | http404
  | exn
deriving DecidableEq

/-- Result of a mutating handler: the resulting store, the outcome, and the
`flash(message, category)` calls made on the way. -/
structure OpResult where
  db : DB
  outcome : Outcome
  flashes : List (String × String)
deriving DecidableEq

/-- The POST form of `/add` and `/edit/<id>` (`request.form.get(...)`). -/
structure ExpenseForm where
  description : Option String := none
  amount : Option String := none
  category : Option String := none
  date : Option String := none
deriving DecidableEq

/-- Model of the `/add` handler `add_expense` (`src/app.py:309-353`) for the
authenticated user `uid`.  `today` is `date.today()`; `nid` is the primary
key the store assigns to the new row.  The amount passes through the full
`float()` grammar: a parse failure or a value with `amount <= 0` is rejected,
a finite positive value is stored exactly, and +inf / NaN — which defeat the
`amount <= 0` test (`src/app.py:320`) — reach the commit
(`committedNonFinite`). -/
def add_expense (db : DB) (uid : Nat) (form : ExpenseForm) (today : Date)
    (nid : Nat) : OpResult :=
  let description := pyStrip (form.description.getD "")
  let amountS := pyStrip (form.amount.getD "")
  let category_name := pyStrip (form.category.getD "")
  let dateS := pyStrip (form.date.getD "")
  match pyFloatFull amountS with
  | none => ⟨db, .rejected, [("Amount must be a positive number", "error")]⟩
  | some v =>
    if v.le0 then
      ⟨db, .rejected, [("Amount must be a positive number", "error")]⟩
    else
      let date_exp := (parse_date dateS).getD today
      if description = "" || category_name = "" then
        ⟨db, .rejected, [("Invalid expense data. Please try again.", "error")]⟩
      else
        match db.categories.find?
            (fun c => c.name == category_name && c.user_id == uid) with
        | none => ⟨db, .rejected, [("Invalid category", "error")]⟩
        | some category =>
          match v with
          | .fin amount =>
            ⟨{ db with expenses := db.expenses ++
                 [⟨nid, description, amount, some category.id, date_exp, uid⟩] },
             .committed, [("Expense added successfully!", "success")]⟩
          | _ =>
            ⟨db, .committedNonFinite,
             [("Expense added successfully!", "success")]⟩

/-- Model of the POST branch of the `/edit/<id>` handler `edit_expense`
(`src/app.py:364-412`) for the authenticated user `uid`.  There is no
ownership check on the expense.  When the `category` field is absent (or
empty) the code reads `expense.category.name`; if the stored expense has no
resolvable category that is an `AttributeError` (`exn`).  A supplied amount
goes through the full `float()` grammar: parse failure or `amount <= 0`
rejects the edit, a finite positive value is applied, and +inf / NaN pass the
test (`src/app.py:385`) and reach the commit (`committedNonFinite`). -/
def edit_expense (db : DB) (uid : Nat) (expense_id : Nat) (form : ExpenseForm) :
    OpResult :=
  match db.expenses.find? (fun e => e.id == expense_id) with
  | none => ⟨db, .http404, []⟩
  | some e =>
    let descRaw := form.description.getD ""
    let description := pyStrip (if descRaw = "" then e.description else descRaw)
    let catRaw := form.category.getD ""
    match (if catRaw = "" then expenseCategoryName db e else some catRaw) with
    | none => ⟨db, .exn, []⟩
    | some catName0 =>
      let category_name := pyStrip catName0
      match db.categories.find?
          (fun c => c.name == category_name && c.user_id == uid) with
      | none => ⟨db, .rejected, [("Invalid category.", "error")]⟩
      | some category_obj =>
        let amountRaw := form.amount.getD ""
        match (if amountRaw = "" then some (PyNum.fin e.amount) else
            match pyFloatFull amountRaw with
            | none => none
            | some v => if v.le0 then none else some v) with
        | none => ⟨db, .rejected, [("Amount must be positive", "error")]⟩
        | some v =>
          let dateRaw := form.date.getD ""
          match (if dateRaw = "" then some e.date else parse_date dateRaw) with
          | none => ⟨db, .rejected, [("Invalid date.", "error")]⟩
          | some date_exp =>
            match v with
            | .fin amount =>
              ⟨{ db with expenses := db.expenses.map (fun x =>
                   if x.id == expense_id then
                     { x with description := description, amount := amount,
                              date := date_exp,
                              category_id := some category_obj.id }
                   else x) },
               .committed, [("Expense updated successfully!", "success")]⟩
            | _ =>
              ⟨db, .committedNonFinite,
               [("Expense updated successfully!", "success")]⟩

/-- Model of the `/delete/<id>` handler `delete_expense` (`src/app.py:355-362`).
The authenticated user `uid` is never consulted: any existing expense is
removed. -/
def delete_expense (db : DB) (uid : Nat) (expense_id : Nat) : OpResult :=
  match db.expenses.find? (fun e => e.id == expense_id) with
  | none => ⟨db, .http404, []⟩
  | some _ =>
    ⟨{ db with expenses := db.expenses.filter (fun e => !(e.id == expense_id)) },
     .committed, [("Expense deleted successfully!", "success")]⟩

/-- Model of the `/edit_categories/<id>/edit` handler `edit_category`
(`src/app.py:260-283`).  The duplicate-name check consults only the
requesting user's categories and only flashes: the rename still proceeds.
No ownership check on the category being renamed. -/
def edit_category (db : DB) (uid : Nat) (cat_id : Nat) (formName : Option String) :
    OpResult :=
  let new_name := pyStrip (formName.getD "")
  match db.categories.find? (fun c => c.id == cat_id) with
  | none => ⟨db, .http404, []⟩
  | some _ =>
    if new_name = "" then
      ⟨db, .rejected, [("Name cannot be empty.", "error")]⟩
    else
      let dupFlash :=
        if (db.categories.find?
            (fun c => c.name == new_name && c.user_id == uid)).isSome then
          [("Category with this name already exists.", "error")]
        else []
      ⟨{ db with categories := db.categories.map (fun c =>
           if c.id == cat_id then { c with name := new_name } else c) },
       .committed, dupFlash ++ [("Category renamed!", "success")]⟩

/-- Model of the `/edit_categories/<id>/delete` handler `delete_category`
(`src/app.py:286-299`).  `cat.expenses` is the ORM backref: every expense row
whose `category_id` references the category, of any user.  No ownership check. -/
def delete_category (db : DB) (uid : Nat) (cat_id : Nat) : OpResult :=
  match db.categories.find? (fun c => c.id == cat_id) with
  | none => ⟨db, .http404, []⟩
  | some cat =>
    if db.expenses.any (fun e => e.category_id == some cat.id) then
      ⟨db, .rejected, [("Cannot delete a category that is in use.", "error")]⟩
    else
      ⟨{ db with categories := db.categories.filter (fun c => !(c.id == cat_id)) },
       .committed, [("Category deleted!", "success")]⟩

/-! ## Witness fixtures: a small concrete store -/

/-- User 1 owns categories `Food`, `Travel` and one `Food` expense of 12.50 on
2024-01-02; user 2 owns categories `Rent`, `Misc` and expense 2 of 7 on
2024-01-03 (in `Rent`; `Misc` is unreferenced). -/
def dbW : DB :=
  { categories := [⟨1, "Food", 1⟩, ⟨2, "Travel", 1⟩, ⟨3, "Rent", 2⟩, ⟨4, "Misc", 2⟩],
    expenses := [⟨1, "lunch", 25 / 2, some 1, ⟨2024, 1, 2⟩, 1⟩,
                 ⟨2, "rent", 7, some 3, ⟨2024, 1, 3⟩, 2⟩] }

/-! ## C3: the dashboard grand total -/

/-- C3 (confirmed): for every dashboard request that renders, the grand total
handed to the view equals the sum of the amounts of exactly the expenses in
the currently displayed set (filtered, or unfiltered when `clear_filters` is
set), rounded to 2 decimal places. -/
theorem dashboard_total_is_rounded_sum (db : DB) (uid : Nat) (p : Params)
    (r : DashResult) (h : dashboard db uid p = some r) :
    r.total = round2 (sumAmounts r.expenses) := by
  unfold dashboard at h
  dsimp only at h
  split at h
  · have h2 := Option.some.inj h
    subst h2
    rfl
  · split at h
    · exact Option.noConfusion h
    · have h2 := Option.some.inj h
      subst h2
      rfl

/-- Witness for C3 at a concrete request (no filters) on `dbW`. -/
theorem dashboard_total_is_rounded_sum_witness :
    ∃ r : DashResult, dashboard dbW 1 {} = some r ∧
      r.total = round2 (sumAmounts r.expenses) := by
  refine ⟨(dashboard dbW 1 {}).get (by with_unfolding_all decide), ?_, ?_⟩
  · with_unfolding_all decide
  · exact dashboard_total_is_rounded_sum dbW 1 {} _ (by with_unfolding_all decide)

/-! ## C7: deleting a referenced category is blocked -/

/-- C7 (confirmed): deleting a category that some expense references fails
with the user-visible flash and leaves the store untouched; deleting an
unreferenced category removes it (and nothing else). -/
theorem delete_category_blocked_iff_in_use (db : DB) (uid cat_id : Nat)
    (cat : Category)
    (hfind : db.categories.find? (fun c => c.id == cat_id) = some cat) :
    ((∃ e ∈ db.expenses, e.category_id = some cat.id) →
        delete_category db uid cat_id =
          ⟨db, .rejected, [("Cannot delete a category that is in use.", "error")]⟩)
    ∧ ((¬ ∃ e ∈ db.expenses, e.category_id = some cat.id) →
        delete_category db uid cat_id =
          ⟨{ db with categories := db.categories.filter (fun c => !(c.id == cat_id)) },
            .committed, [("Category deleted!", "success")]⟩) := by
  unfold delete_category
  rw [hfind]
  constructor
  · intro hex
    obtain ⟨e, he, heq⟩ := hex
    have hany : db.expenses.any (fun e => e.category_id == some cat.id) = true := by
      rw [List.any_eq_true]
      exact ⟨e, he, by simp [heq]⟩
    simp [hany]
  · intro hnex
    have hany : db.expenses.any (fun e => e.category_id == some cat.id) = false := by
      rw [List.any_eq_false]
      intro e he
      simp only [beq_iff_eq]
      exact fun hq => hnex ⟨e, he, hq⟩
    simp [hany]

/-- Witness for C7: category 1 of `dbW` is referenced by expense 1, so the
delete is blocked; category 2 is unreferenced, so it is removed. -/
theorem delete_category_blocked_iff_in_use_witness :
    delete_category dbW 1 1 =
      ⟨dbW, .rejected, [("Cannot delete a category that is in use.", "error")]⟩
    ∧ delete_category dbW 1 2 =
      ⟨{ dbW with categories := dbW.categories.filter (fun c => !(c.id == 2)) },
        .committed, [("Category deleted!", "success")]⟩ :=
  ⟨(delete_category_blocked_iff_in_use dbW 1 1 ⟨1, "Food", 1⟩
      (by with_unfolding_all decide)).1
      ⟨⟨1, "lunch", 25 / 2, some 1, ⟨2024, 1, 2⟩, 1⟩, by with_unfolding_all decide,
        by with_unfolding_all decide⟩,
   (delete_category_blocked_iff_in_use dbW 1 2 ⟨2, "Travel", 1⟩
      (by with_unfolding_all decide)).2
      (by with_unfolding_all decide)⟩

/-! ## C9: expense deletion has no ownership check -/

/-- C9 (confirmed): for every authenticated user and every existing expense
id — the owner is never consulted — `delete_expense` removes the expense and
commits; a nonexistent id yields a 404 with no state change.  The third
conjunct states the absence of the ownership check directly: the result is
identical for every requesting user. -/
theorem delete_expense_no_ownership_check (db : DB) (uid expense_id : Nat) :
    (∀ e, db.expenses.find? (fun x => x.id == expense_id) = some e →
        delete_expense db uid expense_id =
          ⟨{ db with expenses := db.expenses.filter (fun x => !(x.id == expense_id)) },
            .committed, [("Expense deleted successfully!", "success")]⟩)
    ∧ (db.expenses.find? (fun x => x.id == expense_id) = none →
        delete_expense db uid expense_id = ⟨db, .http404, []⟩)
    ∧ (∀ uid2 : Nat,
        delete_expense db uid expense_id = delete_expense db uid2 expense_id) := by
  refine ⟨?_, ?_, fun uid2 => rfl⟩
  · intro e hfind
    unfold delete_expense
    rw [hfind]
  · intro hfind
    unfold delete_expense
    rw [hfind]

/-- Witness for C9: user 2 deletes expense 1 although it belongs to user 1,
and deleting the nonexistent expense 9 is a 404. -/
theorem delete_expense_no_ownership_check_witness :
    ((⟨1, "lunch", 25 / 2, some 1, ⟨2024, 1, 2⟩, 1⟩ : Expense).user_id ≠ 2
      ∧ delete_expense dbW 2 1 =
        ⟨{ dbW with expenses := dbW.expenses.filter (fun x => !(x.id == 1)) },
          .committed, [("Expense deleted successfully!", "success")]⟩)
    ∧ delete_expense dbW 2 9 = ⟨dbW, .http404, []⟩ :=
  ⟨⟨by decide,
    (delete_expense_no_ownership_check dbW 2 1).1
      ⟨1, "lunch", 25 / 2, some 1, ⟨2024, 1, 2⟩, 1⟩ (by with_unfolding_all decide)⟩,
   (delete_expense_no_ownership_check dbW 2 9).2.1 (by with_unfolding_all decide)⟩

/-! ## C10: category rename / delete have no ownership check -/

/-- C10 (confirmed): for any existing category — also one owned by another
user — `edit_category` applies the rename whenever the stripped submitted
name is non-empty, its duplicate check consulting only the requesting user's
categories (it only adds a flash, never blocks), and `delete_category`
removes any category without linked expenses; both results are identical for
every requesting user up to that flash. -/
theorem category_ops_no_ownership_check (db : DB) (uid cat_id : Nat)
    (cat : Category)
    (hfind : db.categories.find? (fun c => c.id == cat_id) = some cat) :
    (∀ name : String, pyStrip name ≠ "" →
        edit_category db uid cat_id (some name) =
          ⟨{ db with categories := db.categories.map (fun c =>
                if c.id == cat_id then { c with name := pyStrip name } else c) },
            .committed,
            (if (db.categories.find? (fun c =>
                  c.name == pyStrip name && c.user_id == uid)).isSome then
              [("Category with this name already exists.", "error")] else [])
              ++ [("Category renamed!", "success")]⟩)
    ∧ (∀ name uid2,
        (edit_category db uid cat_id name).db = (edit_category db uid2 cat_id name).db
        ∧ (edit_category db uid cat_id name).outcome
            = (edit_category db uid2 cat_id name).outcome)
    ∧ (db.expenses.any (fun e => e.category_id == some cat.id) = false →
        delete_category db uid cat_id =
          ⟨{ db with categories := db.categories.filter (fun c => !(c.id == cat_id)) },
            .committed, [("Category deleted!", "success")]⟩)
    ∧ (∀ uid2, delete_category db uid cat_id = delete_category db uid2 cat_id) := by
  refine ⟨?_, ?_, ?_, fun uid2 => rfl⟩
  · intro name hne
    unfold edit_category
    rw [hfind]
    dsimp only [Option.getD_some]
    rw [if_neg hne]
  · intro name uid2
    unfold edit_category
    rw [hfind]
    dsimp only
    split
    · exact ⟨rfl, rfl⟩
    · exact ⟨rfl, rfl⟩
  · intro hany
    unfold delete_category
    rw [hfind]
    simp [hany]

/-- Witness for C10: user 1 renames and deletes category 3, which belongs to
user 2. -/
theorem category_ops_no_ownership_check_witness :
    ((⟨3, "Rent", 2⟩ : Category).user_id ≠ 1
      ∧ edit_category dbW 1 3 (some "Housing") =
        ⟨{ dbW with categories := dbW.categories.map (fun c =>
              if c.id == 3 then { c with name := pyStrip "Housing" } else c) },
          .committed,
          (if (dbW.categories.find? (fun c =>
                c.name == pyStrip "Housing" && c.user_id == 1)).isSome then
            [("Category with this name already exists.", "error")] else [])
            ++ [("Category renamed!", "success")]⟩)
    ∧ ((⟨4, "Misc", 2⟩ : Category).user_id ≠ 1
      ∧ delete_category dbW 1 4 =
        ⟨{ dbW with categories := dbW.categories.filter (fun c => !(c.id == 4)) },
          .committed, [("Category deleted!", "success")]⟩) :=
  ⟨⟨by decide,
    (category_ops_no_ownership_check dbW 1 3 ⟨3, "Rent", 2⟩
        (by with_unfolding_all decide)).1 "Housing" (by decide)⟩,
   ⟨by decide,
    (category_ops_no_ownership_check dbW 1 4 ⟨4, "Misc", 2⟩
        (by with_unfolding_all decide)).2.2.1 (by with_unfolding_all decide)⟩⟩

/-! ## C6: the amount > 0 invariant -/

/-- C6 (code_bug): the guard that is meant to enforce the positive-amount
invariant is `if amount <= 0: raise ValueError` (`src/app.py:320`, and
`src/app.py:385` for edits) — but `float("nan")` parses and `nan <= 0` is
False, so NaN slips through: both handlers proceed to commit a record whose
amount is NaN, which is not a positive number, contradicting the handlers'
own flash message "Amount must be a positive number", the spec's
`amount > 0` invariant, and this claim.  Plain decimal amounts behave as
claimed: "-5" and "0" are rejected with no state change and "12.5" is
accepted and stored exactly as 25/2; "1e3" parses to 1000 and is likewise
accepted. -/
theorem amount_validation_nan_gap :
    pyFloatFull "nan" = some PyNum.nan
    ∧ PyNum.le0 PyNum.nan = false
    ∧ PyNum.pos PyNum.nan = false
    ∧ add_expense dbW 1 ⟨some "snack", some "nan", some "Food", none⟩
        ⟨2024, 1, 6⟩ 3
      = ⟨dbW, .committedNonFinite, [("Expense added successfully!", "success")]⟩
    ∧ edit_expense dbW 1 1 ⟨none, some "nan", none, none⟩
      = ⟨dbW, .committedNonFinite, [("Expense updated successfully!", "success")]⟩
    ∧ (add_expense dbW 1 ⟨some "snack", some "nan", some "Food", none⟩
        ⟨2024, 1, 6⟩ 3).outcome ≠ .rejected
    ∧ add_expense dbW 1 ⟨some "snack", some "-5", some "Food", none⟩
        ⟨2024, 1, 6⟩ 3
      = ⟨dbW, .rejected, [("Amount must be a positive number", "error")]⟩
    ∧ add_expense dbW 1 ⟨some "snack", some "0", some "Food", none⟩
        ⟨2024, 1, 6⟩ 3
      = ⟨dbW, .rejected, [("Amount must be a positive number", "error")]⟩
    ∧ pyFloatFull "1e3" = some (PyNum.fin 1000)
    ∧ add_expense dbW 1 ⟨some "snack", some "12.5", some "Food", some "2024-01-05"⟩
        ⟨2024, 1, 6⟩ 3
      = ⟨{ dbW with expenses := dbW.expenses ++
           [⟨3, "snack", 25 / 2, some 1, ⟨2024, 1, 5⟩, 1⟩] },
         .committed, [("Expense added successfully!", "success")]⟩ := by
  with_unfolding_all decide

/-! ## C8: edit-expense field fallback -/

/-- A store holding an expense with no category set (`category_id` is
nullable, `src/app.py:70`). -/
def dbC8 : DB :=
  { categories := [⟨1, "Food", 1⟩],
    expenses := [⟨1, "mystery", 5, none, ⟨2024, 1, 1⟩, 1⟩] }

/-- C8 counterexample: for a stored expense with no category set, an edit
request that omits the category field does **not** fall back — the handler
evaluates `expense.category.name` on `None` (`src/app.py:374`), an
`AttributeError`, so no edit (fallback or otherwise) is performed. -/
theorem edit_expense_none_category_counterexample :
    dbC8.expenses.find? (fun x => x.id == 1)
      = some ⟨1, "mystery", 5, none, ⟨2024, 1, 1⟩, 1⟩
    ∧ edit_expense dbC8 1 1 {} = ⟨dbC8, .exn, []⟩
    ∧ (edit_expense dbC8 1 1 {}).outcome ≠ .committed := by
  with_unfolding_all decide

/-- C8 (corrected): each absent form field of an edit that commits falls back
to the stored value (description re-stripped; the category re-resolved from
the stored category's *name* among the requesting user's categories) — but
when the stored expense has no category and the category field is absent the
handler raises instead of falling back; a supplied amount that fails the
code's validation (`float()` cannot parse it, or the parsed value satisfies
`amount <= 0` — NaN satisfies neither and passes, see C6) or an unparsable
supplied date rejects the whole edit with no field changed. -/
theorem edit_expense_field_fallback (db : DB) (uid eid : Nat) (form : ExpenseForm)
    (e : Expense) (hfind : db.expenses.find? (fun x => x.id == eid) = some e) :
    ((form : ExpenseForm).category.getD "" = "" → expenseCategoryName db e = none →
        edit_expense db uid eid form = ⟨db, .exn, []⟩)
    ∧ ((edit_expense db uid eid form).outcome = .committed →
        ∃ desc amt dt cid,
          (edit_expense db uid eid form).db.expenses = db.expenses.map (fun x =>
            if x.id == eid then
              { x with description := desc, amount := amt, date := dt,
                       category_id := some cid }
            else x)
          ∧ (form.description.getD "" = "" → desc = pyStrip e.description)
          ∧ (form.amount.getD "" = "" → amt = e.amount)
          ∧ (form.date.getD "" = "" → dt = e.date)
          ∧ (form.category.getD "" = "" →
              ∃ cName c0, expenseCategoryName db e = some cName
                ∧ db.categories.find?
                    (fun c => c.name == pyStrip cName && c.user_id == uid) = some c0
                ∧ cid = c0.id))
    ∧ (∀ s, form.amount = some s → s ≠ "" →
        (pyFloatFull s = none ∨ ∃ v, pyFloatFull s = some v ∧ v.le0 = true) →
        (edit_expense db uid eid form).db = db
        ∧ (edit_expense db uid eid form).outcome ≠ .committed
        ∧ (edit_expense db uid eid form).outcome ≠ .committedNonFinite)
    ∧ (∀ s, form.date = some s → s ≠ "" → parse_date s = none →
        (edit_expense db uid eid form).db = db
        ∧ (edit_expense db uid eid form).outcome ≠ .committed
        ∧ (edit_expense db uid eid form).outcome ≠ .committedNonFinite) := by
  refine ⟨?_, ?_, ?_, ?_⟩
  · intro hcabs hnone
    unfold edit_expense
    rw [hfind]
    dsimp only
    rw [if_pos hcabs, hnone]
  · unfold edit_expense
    rw [hfind]
    dsimp only
    split
    · exact fun hout => absurd hout (fun hcon => Outcome.noConfusion hcon)
    next catName0 hcat =>
      split
      · exact fun hout => absurd hout (fun hcon => Outcome.noConfusion hcon)
      next c0 hcatfind =>
        split
        · exact fun hout => absurd hout (fun hcon => Outcome.noConfusion hcon)
        next v hamt =>
          split
          · exact fun hout => absurd hout (fun hcon => Outcome.noConfusion hcon)
          next dt hdate =>
            cases v with
            | fin amount =>
              intro _
              refine ⟨_, amount, dt, c0.id, rfl, ?_, ?_, ?_, ?_⟩
              · intro hd
                rw [hd]
                simp
              · intro hm
                rw [hm] at hamt
                simp only [if_pos rfl] at hamt
                exact (PyNum.fin.inj (Option.some.inj hamt)).symm
              · intro ht
                rw [ht] at hdate
                simp only [if_pos rfl] at hdate
                exact (Option.some.inj hdate).symm
              · intro hc
                rw [hc] at hcat
                simp only [if_pos rfl] at hcat
                exact ⟨catName0, c0, hcat, hcatfind, rfl⟩
            | inf =>
              exact fun hout => absurd hout (fun hcon => Outcome.noConfusion hcon)
            | ninf =>
              exact fun hout => absurd hout (fun hcon => Outcome.noConfusion hcon)
            | nan =>
              exact fun hout => absurd hout (fun hcon => Outcome.noConfusion hcon)
  · intro s hs hne hbad
    unfold edit_expense
    rw [hfind]
    dsimp only
    split
    · exact ⟨rfl, fun hcon => Outcome.noConfusion hcon,
        fun hcon => Outcome.noConfusion hcon⟩
    next catName0 hcat =>
      split
      · exact ⟨rfl, fun hcon => Outcome.noConfusion hcon,
          fun hcon => Outcome.noConfusion hcon⟩
      next c0 hcatfind =>
        rw [hs]
        dsimp only [Option.getD_some]
        rw [if_neg hne]
        rcases hbad with hnone | ⟨v, hpf, hle⟩
        · rw [hnone]
          exact ⟨rfl, fun hcon => Outcome.noConfusion hcon,
            fun hcon => Outcome.noConfusion hcon⟩
        · rw [hpf]
          dsimp only
          rw [if_pos hle]
          exact ⟨rfl, fun hcon => Outcome.noConfusion hcon,
            fun hcon => Outcome.noConfusion hcon⟩
  · intro s hs hne hpd
    unfold edit_expense
    rw [hfind]
    dsimp only
    split
    · exact ⟨rfl, fun hcon => Outcome.noConfusion hcon,
        fun hcon => Outcome.noConfusion hcon⟩
    next catName0 hcat =>
      split
      · exact ⟨rfl, fun hcon => Outcome.noConfusion hcon,
          fun hcon => Outcome.noConfusion hcon⟩
      next c0 hcatfind =>
        split
        · exact ⟨rfl, fun hcon => Outcome.noConfusion hcon,
            fun hcon => Outcome.noConfusion hcon⟩
        next v hamt =>
          rw [hs]
          dsimp only [Option.getD_some]
          rw [if_neg hne, hpd]
          exact ⟨rfl, fun hcon => Outcome.noConfusion hcon,
            fun hcon => Outcome.noConfusion hcon⟩

/-- Witness for C8 at a concrete input: editing expense 1 of `dbW` with the
amount string "0" (which `float()` parses to 0, failing `amount <= 0`) is
rejected and changes nothing. -/
theorem edit_expense_field_fallback_witness :
    (edit_expense dbW 1 1 ⟨none, some "0", none, none⟩).db = dbW
    ∧ (edit_expense dbW 1 1 ⟨none, some "0", none, none⟩).outcome ≠ .committed
    ∧ (edit_expense dbW 1 1 ⟨none, some "0", none, none⟩).outcome
        ≠ .committedNonFinite :=
  (edit_expense_field_fallback dbW 1 1 ⟨none, some "0", none, none⟩
      ⟨1, "lunch", 25 / 2, some 1, ⟨2024, 1, 2⟩, 1⟩
      (by with_unfolding_all decide)).2.2.1 "0" rfl (by decide)
    (Or.inr ⟨PyNum.fin 0, by with_unfolding_all decide,
      by with_unfolding_all decide⟩)

/-! ## C1: the dashboard's filtered list -/

/-- The claim's date-range / amount-range / ownership conjunction: `date >=
start` and `date <= end` for each validly-parsed bound, `amount >=
min_amount` / `amount <= max_amount` for each non-empty bound, owned by the
user. -/
def dateAmountPred (uid : Nat) (startS endS minS maxS : String) (e : Expense) : Bool :=
  (if maxS = "" then true else
    match pyFloat maxS with
    | some M => decide (e.amount ≤ M)
    | none => false)
  && ((if minS = "" then true else
    match pyFloat minS with
    | some m => decide (m ≤ e.amount)
    | none => false)
  && ((match parse_date endS with
    | some d => dateLe e.date d
    | none => true)
  && ((match parse_date startS with
    | some d => dateLe d e.date
    | none => true)
  && (e.user_id == uid))))

/-- The full conjunction of C1: every present filter of the request, combined
conjunctively, the category filter comparing the expense's own category name
(case-sensitively) with `filter_category`. -/
def c1Pred (db : DB) (uid : Nat) (p : Params) (e : Expense) : Bool :=
  (if pyStrip (p.filter_category.getD "") = "" then true
   else expenseCategoryName db e == some (pyStrip (p.filter_category.getD "")))
  && dateAmountPred uid (pyStrip (p.start.getD "")) (pyStrip (p.end_.getD ""))
      (pyStrip (p.min_amount.getD "")) (pyStrip (p.max_amount.getD "")) e

theorem date_stage_eq (l : List Expense) (s : String) (f : Date → Expense → Bool) :
    (match parse_date s with
      | some d => l.filter (f d)
      | none => l) =
      l.filter (fun e =>
        match parse_date s with
        | some d => f d e
        | none => true) := by
  cases hp : parse_date s with
  | none => simp
  | some d => simp

theorem cat_stage_eq (db : DB) (l : List Expense) (s : String) :
    (if s = "" then l
     else l.filter (fun e => expenseCategoryName db e == some s)) =
      l.filter (fun e => if s = "" then true
        else expenseCategoryName db e == some s) := by
  by_cases hs : s = "" <;> simp [hs]

theorem filterUserDateAmount_eq_filter (db : DB) (uid : Nat)
    (startS endS minS maxS : String) (q : List Expense)
    (h : filterUserDateAmount db uid startS endS minS maxS = some q) :
    q = db.expenses.filter (dateAmountPred uid startS endS minS maxS) := by
  unfold filterUserDateAmount at h
  dsimp only at h
  cases hmo : (if minS = "" then some none else (pyFloat minS).map some :
      Option (Option ℚ)) with
  | none =>
    rw [hmo] at h
    exact absurd h (by simp)
  | some mo =>
    rw [hmo] at h
    dsimp only at h
    cases hMo : (if maxS = "" then some none else (pyFloat maxS).map some :
        Option (Option ℚ)) with
    | none =>
      rw [hMo] at h
      exact absurd h (by simp)
    | some Mo =>
      rw [hMo] at h
      dsimp only at h
      have hq := Option.some.inj h
      subst hq
      cases mo with
      | none =>
        have hminE : minS = "" := by
          by_cases hs : minS = ""
          · exact hs
          · rw [if_neg hs] at hmo
            simp at hmo
        cases Mo with
        | none =>
          have hmaxE : maxS = "" := by
            by_cases hs : maxS = ""
            · exact hs
            · rw [if_neg hs] at hMo
              simp at hMo
          rw [date_stage_eq _ endS (fun d e => dateLe e.date d),
              date_stage_eq _ startS (fun d e => dateLe d e.date)]
          simp only [List.filter_filter]
          refine List.filter_congr (fun e he => ?_)
          simp [dateAmountPred, hminE, hmaxE]
        | some M =>
          have hM2 : maxS ≠ "" ∧ pyFloat maxS = some M := by
            by_cases hs : maxS = ""
            · rw [if_pos hs] at hMo
              exact absurd (Option.some.inj hMo) (by simp)
            · rw [if_neg hs, Option.map_eq_some'] at hMo
              obtain ⟨a, hpf, hfa⟩ := hMo
              cases Option.some.inj hfa
              exact ⟨hs, hpf⟩
          rw [date_stage_eq _ endS (fun d e => dateLe e.date d),
              date_stage_eq _ startS (fun d e => dateLe d e.date)]
          simp only [List.filter_filter]
          refine List.filter_congr (fun e he => ?_)
          simp [dateAmountPred, hminE, hM2.1, hM2.2]
      | some m =>
        have hm2 : minS ≠ "" ∧ pyFloat minS = some m := by
          by_cases hs : minS = ""
          · rw [if_pos hs] at hmo
            exact absurd (Option.some.inj hmo) (by simp)
          · rw [if_neg hs, Option.map_eq_some'] at hmo
            obtain ⟨a, hpf, hfa⟩ := hmo
            cases Option.some.inj hfa
            exact ⟨hs, hpf⟩
        cases Mo with
        | none =>
          have hmaxE : maxS = "" := by
            by_cases hs : maxS = ""
            · exact hs
            · rw [if_neg hs] at hMo
              simp at hMo
          rw [date_stage_eq _ endS (fun d e => dateLe e.date d),
              date_stage_eq _ startS (fun d e => dateLe d e.date)]
          simp only [List.filter_filter]
          refine List.filter_congr (fun e he => ?_)
          simp [dateAmountPred, hm2.1, hm2.2, hmaxE]
        | some M =>
          have hM2 : maxS ≠ "" ∧ pyFloat maxS = some M := by
            by_cases hs : maxS = ""
            · rw [if_pos hs] at hMo
              exact absurd (Option.some.inj hMo) (by simp)
            · rw [if_neg hs, Option.map_eq_some'] at hMo
              obtain ⟨a, hpf, hfa⟩ := hMo
              cases Option.some.inj hfa
              exact ⟨hs, hpf⟩
          rw [date_stage_eq _ endS (fun d e => dateLe e.date d),
              date_stage_eq _ startS (fun d e => dateLe d e.date)]
          simp only [List.filter_filter]
          refine List.filter_congr (fun e he => ?_)
          simp [dateAmountPred, hm2.1, hm2.2, hM2.1, hM2.2]

/-- C1 (confirmed): for every dashboard request by an authenticated user with
`clear_filters` not set (to `"true"`) that renders, the displayed list is
exactly the user's expenses satisfying every present filter conjunctively —
date bounds for validly-parsed dates, amount bounds for non-empty amount
strings, exact (case-sensitive) category-name match — ordered by date,
descending. -/
theorem dashboard_filter_conjunction (db : DB) (uid : Nat) (p : Params)
    (r : DashResult) (hcf : p.clear_filters ≠ some "true")
    (h : dashboard db uid p = some r) :
    r.expenses.Perm (db.expenses.filter (c1Pred db uid p))
    ∧ r.expenses.Pairwise dateGe := by
  unfold dashboard at h
  dsimp only at h
  rw [if_neg (by simp [hcf])] at h
  cases hq : filterUserDateAmount db uid (pyStrip (p.start.getD ""))
      (pyStrip (p.end_.getD "")) (pyStrip (p.min_amount.getD ""))
      (pyStrip (p.max_amount.getD "")) with
  | none =>
    rw [hq] at h
    exact absurd h (by simp)
  | some q =>
    rw [hq] at h
    dsimp only at h
    have hr := Option.some.inj h
    subst hr
    constructor
    · show (sortDateDesc _).Perm _
      refine (List.perm_insertionSort dateGe _).trans ?_
      rw [filterUserDateAmount_eq_filter db uid _ _ _ _ q hq, cat_stage_eq,
          List.filter_filter]
      exact List.Perm.refl _
    · exact List.sorted_insertionSort dateGe _

/-- A concrete filtered request: start date, minimum amount and category are
present, the rest absent. -/
def pC1 : Params :=
  { start := some "2024-01-02", min_amount := some "1",
    filter_category := some "Food" }

/-- Witness for C1 at the concrete request `pC1` on `dbW`. -/
theorem dashboard_filter_conjunction_witness :
    ∃ r : DashResult, dashboard dbW 1 pC1 = some r ∧
      r.expenses.Perm (dbW.expenses.filter (c1Pred dbW 1 pC1))
      ∧ r.expenses.Pairwise dateGe := by
  refine ⟨(dashboard dbW 1 pC1).get (by with_unfolding_all decide),
    by with_unfolding_all decide, ?_⟩
  exact dashboard_filter_conjunction dbW 1 pC1 _ (by decide)
    (by with_unfolding_all decide)

/-! ## C4: CSV export vs dashboard selection -/

/-- C4 counterexample: with `filter_category=Travel` on `dbW` (user 1 has a
`Travel` category but the lone expense is in `Food`), the dashboard shows no
expense, yet the export — whose category stage is an implicit cross join
(`src/app.py:448`), not a join on the expense's own category — selects the
`Food` expense. -/
theorem export_matches_dashboard_counterexample :
    exportExpenses dbW 1 { filter_category := some "Travel" } ≠
      (dashboard dbW 1 { filter_category := some "Travel" }).map DashResult.expenses
    ∧ exportExpenses dbW 1 { filter_category := some "Travel" } =
        some [⟨1, "lunch", 25 / 2, some 1, ⟨2024, 1, 2⟩, 1⟩]
    ∧ (dashboard dbW 1 { filter_category := some "Travel" }).map DashResult.expenses =
        some [] := by
  with_unfolding_all decide

/-- C4 (corrected): the CSV export selects exactly the dashboard's displayed
set, in the same order, whenever `filter_category` is empty; when
`filter_category` is non-empty the export ignores each expense's own
category: if *some* category row (of any user) carries that name it selects
everything the date/amount stages kept — i.e. what the dashboard shows with
no category filter — and otherwise it selects nothing. -/
theorem export_selection_vs_dashboard (db : DB) (uid : Nat) (p : Params)
    (hcf : p.clear_filters ≠ some "true") :
    (pyStrip (p.filter_category.getD "") = "" →
        exportExpenses db uid p = (dashboard db uid p).map DashResult.expenses)
    ∧ (pyStrip (p.filter_category.getD "") ≠ "" →
        ((∃ c ∈ db.categories, c.name = pyStrip (p.filter_category.getD "")) →
            exportExpenses db uid p =
              (dashboard db uid { p with filter_category := none }).map
                DashResult.expenses)
        ∧ ((¬ ∃ c ∈ db.categories, c.name = pyStrip (p.filter_category.getD "")) →
            ∀ q, filterUserDateAmount db uid (pyStrip (p.start.getD ""))
                (pyStrip (p.end_.getD "")) (pyStrip (p.min_amount.getD ""))
                (pyStrip (p.max_amount.getD "")) = some q →
              exportExpenses db uid p = some [])) := by
  refine ⟨?_, fun hsel => ⟨?_, ?_⟩⟩
  · intro hsel
    unfold exportExpenses dashboard
    dsimp only
    rw [if_neg (by simp [hcf])]
    cases hq : filterUserDateAmount db uid (pyStrip (p.start.getD ""))
        (pyStrip (p.end_.getD "")) (pyStrip (p.min_amount.getD ""))
        (pyStrip (p.max_amount.getD "")) with
    | none => rfl
    | some q =>
      dsimp only
      rw [if_pos hsel, if_pos hsel]
      rfl
  · intro hex
    have hany : db.categories.any
        (fun c => c.name == pyStrip (p.filter_category.getD "")) = true := by
      rw [List.any_eq_true]
      obtain ⟨c, hc, hname⟩ := hex
      exact ⟨c, hc, by simp [hname]⟩
    unfold exportExpenses dashboard
    dsimp only
    rw [if_neg (by simp [hcf])]
    cases hq : filterUserDateAmount db uid (pyStrip (p.start.getD ""))
        (pyStrip (p.end_.getD "")) (pyStrip (p.min_amount.getD ""))
        (pyStrip (p.max_amount.getD "")) with
    | none => rfl
    | some q =>
      dsimp only
      rw [if_neg hsel, if_pos hany]
      have hsel2 : pyStrip ((none : Option String).getD "") = "" := rfl
      rw [if_pos hsel2]
      rfl
  · intro hnex q hq
    have hany : db.categories.any
        (fun c => c.name == pyStrip (p.filter_category.getD "")) = false := by
      rw [List.any_eq_false]
      intro c hc
      simp only [beq_iff_eq]
      exact fun heq => hnex ⟨c, hc, heq⟩
    unfold exportExpenses
    dsimp only
    rw [hq]
    dsimp only
    rw [if_neg hsel, hany]
    rfl

/-- Witness for C4: the equal-selection conjunct at a date-only request, and
the name-exists conjunct at the `Travel` request, both on `dbW`. -/
theorem export_selection_vs_dashboard_witness :
    (exportExpenses dbW 1 { start := some "2024-01-02" } =
      (dashboard dbW 1 { start := some "2024-01-02" }).map DashResult.expenses)
    ∧ (exportExpenses dbW 1 { filter_category := some "Travel" } =
      (dashboard dbW 1 { filter_category := none }).map DashResult.expenses) :=
  ⟨(export_selection_vs_dashboard dbW 1 { start := some "2024-01-02" }
      (by decide)).1 (by decide),
   ((export_selection_vs_dashboard dbW 1 { filter_category := some "Travel" }
      (by decide)).2 (by decide)).1 ⟨⟨2, "Travel", 1⟩, by decide, by decide⟩⟩

/-! ## C5: CSV text, selection bounds and filename -/

theorem optList_forall_isSome {α : Type} (L : List (Option α)) (l : List α)
    (h : optList L = some l) : ∀ x ∈ L, x.isSome := by
  induction L generalizing l with
  | nil =>
    intro x hx
    cases hx
  | cons a rest ih =>
    cases a with
    | none => exact Option.noConfusion h
    | some b =>
      intro x hx
      cases hx with
      | head => rfl
      | tail _ hx2 =>
        unfold optList at h
        cases hrest : optList rest with
        | none =>
          rw [hrest] at h
          exact Option.noConfusion h
        | some l2 => exact ih l2 hrest x hx2

theorem optList_length {α : Type} (L : List (Option α)) (l : List α)
    (h : optList L = some l) : l.length = L.length := by
  induction L generalizing l with
  | nil =>
    cases Option.some.inj h
    rfl
  | cons a rest ih =>
    cases a with
    | none => exact Option.noConfusion h
    | some b =>
      unfold optList at h
      cases hrest : optList rest with
      | none =>
        rw [hrest] at h
        exact Option.noConfusion h
      | some l2 =>
        rw [hrest] at h
        dsimp only [Option.map] at h
        cases Option.some.inj h
        simp [ih l2 hrest]

theorem dateAmountPred_dates (uid : Nat) (S E mn mx : String) (e : Expense)
    (h : dateAmountPred uid S E mn mx e = true) :
    (∀ d, parse_date S = some d → dateLe d e.date = true)
    ∧ (∀ d, parse_date E = some d → dateLe e.date d = true) := by
  unfold dateAmountPred at h
  simp only [Bool.and_eq_true] at h
  constructor
  · intro d hd
    have h4 := h.2.2.2.1
    rw [hd] at h4
    exact h4
  · intro d hd
    have h3 := h.2.2.1
    rw [hd] at h3
    exact h3

theorem exportExpenses_sub (db : DB) (uid : Nat) (p : Params) (es : List Expense)
    (h : exportExpenses db uid p = some es) :
    ∃ q, filterUserDateAmount db uid (pyStrip (p.start.getD ""))
        (pyStrip (p.end_.getD "")) (pyStrip (p.min_amount.getD ""))
        (pyStrip (p.max_amount.getD "")) = some q
      ∧ es.Pairwise dateGe ∧ ∀ e ∈ es, e ∈ q := by
  unfold exportExpenses at h
  dsimp only at h
  cases hq : filterUserDateAmount db uid (pyStrip (p.start.getD ""))
      (pyStrip (p.end_.getD "")) (pyStrip (p.min_amount.getD ""))
      (pyStrip (p.max_amount.getD "")) with
  | none =>
    rw [hq] at h
    exact Option.noConfusion h
  | some q =>
    rw [hq] at h
    dsimp only at h
    have hes := Option.some.inj h
    subst hes
    refine ⟨q, rfl, List.sorted_insertionSort dateGe _, ?_⟩
    intro e he
    have he2 := (List.perm_insertionSort dateGe _).mem_iff.mp he
    by_cases h1 : pyStrip (p.filter_category.getD "") = ""
    · rw [if_pos h1] at he2
      exact he2
    · rw [if_neg h1] at he2
      by_cases h2 : (db.categories.any
          (fun c => c.name == pyStrip (p.filter_category.getD ""))) = true
      · rw [if_pos h2] at he2
        exact he2
      · rw [if_neg h2] at he2
        cases he2

/-- C5 (confirmed): every produced CSV is the header line
`date,description,category,amount` followed (newline-separated) by exactly
one line per selected expense, the selection date-descending and respecting
every validly-parsed date bound, each line carrying the amount with exactly
two decimal digits; the attachment filename substitutes `all` for each
absent bound. -/
theorem export_csv_format (db : DB) (uid : Nat) (p : Params) (csv fname : String)
    (h : export_csv db uid p = some (csv, fname)) :
    ∃ es ls, exportExpenses db uid p = some es
      ∧ optList (es.map (csvLine db)) = some ls
      ∧ csv = String.intercalate "\n" ("date,description,category,amount" :: ls)
      ∧ ls.length = es.length
      ∧ es.Pairwise dateGe
      ∧ (∀ e ∈ es, ∀ d, parse_date (pyStrip (p.start.getD "")) = some d →
          dateLe d e.date = true)
      ∧ (∀ e ∈ es, ∀ d, parse_date (pyStrip (p.end_.getD "")) = some d →
          dateLe e.date d = true)
      ∧ (∀ e ∈ es, ∃ pre frac, csvLine db e = some (pre ++ "." ++ frac)
          ∧ frac.length = 2)
      ∧ fname = "expenses_"
          ++ (if pyStrip (p.start.getD "") = "" then "all"
              else pyStrip (p.start.getD ""))
          ++ "_to_"
          ++ (if pyStrip (p.end_.getD "") = "" then "all"
              else pyStrip (p.end_.getD "")) ++ ".csv" := by
  unfold export_csv at h
  dsimp only at h
  cases hes : exportExpenses db uid p with
  | none =>
    rw [hes] at h
    exact Option.noConfusion h
  | some es =>
    rw [hes] at h
    dsimp only at h
    cases hls : optList (es.map (csvLine db)) with
    | none =>
      rw [hls] at h
      exact Option.noConfusion h
    | some ls =>
      rw [hls] at h
      dsimp only at h
      have hpair := Option.some.inj h
      rw [Prod.mk.injEq] at hpair
      obtain ⟨hcsv, hfname⟩ := hpair
      obtain ⟨q, hq, hsorted, hsub⟩ := exportExpenses_sub db uid p es hes
      have hqf := filterUserDateAmount_eq_filter db uid _ _ _ _ q hq
      have hpred : ∀ e ∈ es, dateAmountPred uid (pyStrip (p.start.getD ""))
          (pyStrip (p.end_.getD "")) (pyStrip (p.min_amount.getD ""))
          (pyStrip (p.max_amount.getD "")) e = true := by
        intro e he
        have := hsub e he
        rw [hqf] at this
        exact (List.mem_filter.mp this).2
      refine ⟨es, ls, rfl, hls, hcsv.symm, optList_length _ _ hls |>.trans
        (List.length_map _ _), hsorted, ?_, ?_, ?_, hfname.symm⟩
      · intro e he d hd
        exact (dateAmountPred_dates _ _ _ _ _ _ (hpred e he)).1 d hd
      · intro e he d hd
        exact (dateAmountPred_dates _ _ _ _ _ _ (hpred e he)).2 d hd
      · intro e he
        have hsome := optList_forall_isSome _ _ hls (csvLine db e)
          (List.mem_map_of_mem _ he)
        cases hcn : expenseCategoryName db e with
        | none =>
          unfold csvLine at hsome
          rw [hcn] at hsome
          exact absurd hsome (by simp)
        | some cn =>
          refine ⟨isoformat e.date ++ ", " ++ e.description ++ ", " ++ cn ++ ", "
              ++ ((if roundHalfEven (e.amount * 100) < 0 then "-" else "")
                  ++ natToStr ((roundHalfEven (e.amount * 100)).natAbs / 100)),
            twoDigits ((roundHalfEven (e.amount * 100)).natAbs % 100), ?_, rfl⟩
          unfold csvLine formatAmount2
          rw [hcn]
          dsimp only [Option.map]
          rw [Option.some.injEq]
          simp [String.append_assoc]

/-- A concrete export request with both date bounds present. -/
def pC5 : Params :=
  { start := some "2024-01-01", end_ := some "2024-01-31" }

/-- Witness for C5: the January 2024 export of `dbW` for user 1. -/
theorem export_csv_format_witness :
    ∃ es ls, exportExpenses dbW 1 pC5 = some es
      ∧ optList (es.map (csvLine dbW)) = some ls
      ∧ "date,description,category,amount\n2024-01-02, lunch, Food, 12.50"
          = String.intercalate "\n" ("date,description,category,amount" :: ls)
      ∧ ls.length = es.length
      ∧ es.Pairwise dateGe
      ∧ (∀ e ∈ es, ∀ d, parse_date (pyStrip (pC5.start.getD "")) = some d →
          dateLe d e.date = true)
      ∧ (∀ e ∈ es, ∀ d, parse_date (pyStrip (pC5.end_.getD "")) = some d →
          dateLe e.date d = true)
      ∧ (∀ e ∈ es, ∃ pre frac, csvLine dbW e = some (pre ++ "." ++ frac)
          ∧ frac.length = 2)
      ∧ "expenses_2024-01-01_to_2024-01-31.csv" = "expenses_"
          ++ (if pyStrip (pC5.start.getD "") = "" then "all"
              else pyStrip (pC5.start.getD ""))
          ++ "_to_"
          ++ (if pyStrip (pC5.end_.getD "") = "" then "all"
              else pyStrip (pC5.end_.getD "")) ++ ".csv" :=
  export_csv_format dbW 1 pC5
    "date,description,category,amount\n2024-01-02, lunch, Food, 12.50"
    "expenses_2024-01-01_to_2024-01-31.csv" (by with_unfolding_all decide)

/-! ## C2: the chart aggregates -/

theorem dashboard_charts_fixed (db : DB) (uid : Nat) (p : Params) (r : DashResult)
    (h : dashboard db uid p = some r) :
    r.catLabels = cat_labels db uid ∧ r.catValues = cat_values db uid
    ∧ r.dayLabels = day_labels db uid ∧ r.dayValues = day_values db uid := by
  unfold dashboard at h
  dsimp only at h
  split at h
  · have h2 := Option.some.inj h
    subst h2
    exact ⟨rfl, rfl, rfl, rfl⟩
  · split at h
    · exact Option.noConfusion h
    · have h2 := Option.some.inj h
      subst h2
      exact ⟨rfl, rfl, rfl, rfl⟩

theorem zip_self_map {α β : Type} (l : List α) (g : α → β) :
    l.zip (l.map g) = l.map (fun a => (a, g a)) := by
  induction l with
  | nil => rfl
  | cons a t ih => simp [ih]

theorem cat_labels_eq (db : DB) (uid : Nat) :
    cat_labels db uid = (((db.expenses.filter (fun e => e.user_id == uid)).filterMap
      (fun e => (expenseCategoryName db e).map (fun nm => (nm, e.amount)))).map
        Prod.fst).dedup := by
  unfold cat_labels cat_rows
  dsimp only
  rw [List.map_map]
  exact Eq.trans (List.map_congr_left (fun n hn => rfl)) (List.map_id _)

theorem cat_labels_mem (db : DB) (uid : Nat) (n : String) :
    n ∈ cat_labels db uid ↔
      ∃ e ∈ db.expenses, e.user_id = uid ∧ expenseCategoryName db e = some n := by
  rw [cat_labels_eq, List.mem_dedup, List.mem_map]
  constructor
  · rintro ⟨⟨nm, amt⟩, hpr, rfl⟩
    rw [List.mem_filterMap] at hpr
    obtain ⟨e, he, hF⟩ := hpr
    rw [List.mem_filter] at he
    rw [Option.map_eq_some'] at hF
    obtain ⟨nm2, hcn, hpair⟩ := hF
    obtain ⟨h1, h2⟩ := Prod.mk.inj hpair
    exact ⟨e, he.1, by simpa using he.2, h1 ▸ hcn⟩
  · rintro ⟨e, he, hu, hcn⟩
    refine ⟨(n, e.amount), ?_, rfl⟩
    rw [List.mem_filterMap]
    refine ⟨e, List.mem_filter.mpr ⟨he, by simp [hu]⟩, ?_⟩
    rw [hcn]
    rfl

theorem cat_join_filter_aux (db : DB) (n : String) (l : List Expense) :
    ((l.filterMap
        (fun e => (expenseCategoryName db e).map (fun nm => (nm, e.amount)))).filter
      (fun r => r.1 == n)).map Prod.snd
    = (l.filter (fun e => expenseCategoryName db e == some n)).map Expense.amount := by
  induction l with
  | nil => rfl
  | cons a t ih =>
    rw [List.filterMap_cons, List.filter_cons]
    cases hcn : expenseCategoryName db a with
    | none =>
      rw [if_neg (by simp [hcn])]
      dsimp only [Option.map_none']
      exact ih
    | some nm =>
      dsimp only [Option.map_some']
      rw [List.filter_cons]
      by_cases hn : (nm == n) = true
      · rw [if_pos hn, if_pos (by simp [hcn, beq_iff_eq.mp hn])]
        rw [List.map_cons, List.map_cons, ih]
      · rw [if_neg hn, if_neg (by simp [hcn]; simpa using hn)]
        exact ih

theorem cat_join_filter_eq (db : DB) (uid : Nat) (n : String) :
    (((db.expenses.filter (fun e => e.user_id == uid)).filterMap
        (fun e => (expenseCategoryName db e).map (fun nm => (nm, e.amount)))).filter
      (fun r => r.1 == n)).map Prod.snd
    = (db.expenses.filter (fun e => e.user_id == uid
        && (expenseCategoryName db e == some n))).map Expense.amount := by
  rw [cat_join_filter_aux db n (db.expenses.filter (fun e => e.user_id == uid))]
  congr 1
  rw [List.filter_filter]
  exact List.filter_congr (fun e he => Bool.and_comm _ _)

theorem cat_values_eq (db : DB) (uid : Nat) :
    cat_values db uid = (((db.expenses.filter (fun e => e.user_id == uid)).filterMap
      (fun e => (expenseCategoryName db e).map (fun nm => (nm, e.amount)))).map
        Prod.fst).dedup.map (fun n =>
      round2 (sumAmounts (db.expenses.filter (fun e =>
        e.user_id == uid && (expenseCategoryName db e == some n))))) := by
  unfold cat_values cat_rows
  dsimp only
  rw [List.map_map]
  refine List.map_congr_left (fun n hn => ?_)
  dsimp only [Function.comp]
  congr 1
  unfold sumAmounts
  congr 1
  exact cat_join_filter_eq db uid n

theorem cat_zip_eq (db : DB) (uid : Nat) :
    (cat_labels db uid).zip (cat_values db uid) = (cat_labels db uid).map (fun n =>
      (n, round2 (sumAmounts (db.expenses.filter (fun e =>
        e.user_id == uid && (expenseCategoryName db e == some n)))))) := by
  rw [cat_values_eq, ← cat_labels_eq, zip_self_map]

theorem day_labels_eq (db : DB) (uid : Nat) :
    day_labels db uid = (((db.expenses.filter (fun e => e.user_id == uid)).map
      Expense.date).dedup).map isoformat := by
  unfold day_labels day_rows
  dsimp only
  rw [List.map_map]
  rfl

theorem day_values_eq (db : DB) (uid : Nat) :
    day_values db uid = (((db.expenses.filter (fun e => e.user_id == uid)).map
      Expense.date).dedup).map (fun d =>
        round2 (sumAmounts (db.expenses.filter
          (fun e => e.user_id == uid && e.date == d)))) := by
  unfold day_values day_rows
  dsimp only
  rw [List.map_map]
  refine List.map_congr_left (fun d hd => ?_)
  dsimp only [Function.comp]
  congr 1
  unfold sumAmounts
  refine congrArg List.sum (congrArg (List.map Expense.amount) ?_)
  rw [List.filter_filter]
  exact List.filter_congr (fun e he => Bool.and_comm _ _)

theorem day_mem (db : DB) (uid : Nat) (d : Date) :
    d ∈ ((db.expenses.filter (fun e => e.user_id == uid)).map Expense.date).dedup ↔
      ∃ e ∈ db.expenses, e.user_id = uid ∧ e.date = d := by
  rw [List.mem_dedup, List.mem_map]
  constructor
  · rintro ⟨e, he, rfl⟩
    rw [List.mem_filter] at he
    exact ⟨e, he.1, by simpa using he.2, rfl⟩
  · rintro ⟨e, he, hu, rfl⟩
    exact ⟨e, List.mem_filter.mpr ⟨he, by simp [hu]⟩, rfl⟩

/-- For refutation only, the claim's own description of the category totals:
one entry per *category* of the user having at least one expense, each the
sum of that category's expense amounts. -/
def claimedCatTotals (db : DB) (uid : Nat) : List (String × ℚ) :=
  (db.categories.filter (fun c => c.user_id == uid
      && db.expenses.any (fun e => e.user_id == uid
          && e.category_id == some c.id))).map
    (fun c => (c.name,
      ((db.expenses.filter (fun e => e.user_id == uid
          && e.category_id == some c.id)).map Expense.amount).sum))

/-- A store with two same-named categories of user 1, each carrying one
expense.  This state is reachable: `edit_category` renames despite a
duplicate name (it only flashes, `src/app.py:277-281`). -/
def dbC2 : DB :=
  { categories := [⟨1, "A", 1⟩, ⟨2, "A", 1⟩],
    expenses := [⟨1, "x", 3, some 1, ⟨2024, 1, 1⟩, 1⟩,
                 ⟨2, "y", 5, some 2, ⟨2024, 1, 2⟩, 1⟩] }

/-- C2 counterexample: the chart groups by category *name*
(`GROUP BY category.name`, `src/app.py:137`), so with two same-named
categories the dashboard produces one merged entry `("A", 8)` where the claim
describes one entry per category — `("A", 3)` and `("A", 5)`. -/
theorem dashboard_cat_totals_counterexample :
    (dashboard dbC2 1 {}).map (fun r => r.catLabels.zip r.catValues)
      = some [("A", 8)]
    ∧ claimedCatTotals dbC2 1 = [("A", 3), ("A", 5)]
    ∧ (dashboard dbC2 1 {}).map (fun r => r.catLabels.zip r.catValues)
      ≠ some (claimedCatTotals dbC2 1) := by
  with_unfolding_all decide

/-- C2 (corrected): the chart aggregates handed to the view are computed over
all of the user's expenses and are identical for every combination of filter
parameters; the category chart carries one entry per distinct category *name*
among the user's categorised expenses — each the 2-dp-rounded sum of the
user's expense amounts whose category bears that name — and the day chart one
entry per distinct calendar date with the 2-dp-rounded per-date sum. -/
theorem dashboard_aggregates (db : DB) (uid : Nat) (p p2 : Params)
    (r r2 : DashResult) (h : dashboard db uid p = some r)
    (h2 : dashboard db uid p2 = some r2) :
    (r.catLabels = r2.catLabels ∧ r.catValues = r2.catValues
      ∧ r.dayLabels = r2.dayLabels ∧ r.dayValues = r2.dayValues)
    ∧ r.catLabels.Nodup
    ∧ (∀ n, n ∈ r.catLabels ↔
        ∃ e ∈ db.expenses, e.user_id = uid ∧ expenseCategoryName db e = some n)
    ∧ r.catLabels.zip r.catValues = r.catLabels.map (fun n =>
        (n, round2 (sumAmounts (db.expenses.filter (fun e =>
          e.user_id == uid && (expenseCategoryName db e == some n))))))
    ∧ ∃ ds : List Date, ds.Nodup
        ∧ (∀ d, d ∈ ds ↔ ∃ e ∈ db.expenses, e.user_id = uid ∧ e.date = d)
        ∧ r.dayLabels = ds.map isoformat
        ∧ r.dayValues = ds.map (fun d =>
            round2 (sumAmounts (db.expenses.filter (fun e =>
              e.user_id == uid && e.date == d)))) := by
  obtain ⟨hc1, hv1, hd1, hw1⟩ := dashboard_charts_fixed db uid p r h
  obtain ⟨hc2, hv2, hd2, hw2⟩ := dashboard_charts_fixed db uid p2 r2 h2
  refine ⟨⟨hc1.trans hc2.symm, hv1.trans hv2.symm, hd1.trans hd2.symm,
    hw1.trans hw2.symm⟩, ?_, ?_, ?_, ?_⟩
  · rw [hc1, cat_labels_eq]
    exact List.nodup_dedup _
  · intro n
    rw [hc1]
    exact cat_labels_mem db uid n
  · rw [hc1, hv1]
    exact cat_zip_eq db uid
  · refine ⟨((db.expenses.filter (fun e => e.user_id == uid)).map
        Expense.date).dedup, List.nodup_dedup _, ?_, ?_, ?_⟩
    · intro d
      exact day_mem db uid d
    · rw [hd1]
      exact day_labels_eq db uid
    · rw [hw1]
      exact day_values_eq db uid

/-- Witness for C2 at two concrete requests (no filters vs the `pC1`
filters) on `dbW`: identical chart data. -/
theorem dashboard_aggregates_witness :
    ∃ r r2 : DashResult, dashboard dbW 1 {} = some r
      ∧ dashboard dbW 1 pC1 = some r2
      ∧ r.catLabels = r2.catLabels ∧ r.catValues = r2.catValues
      ∧ r.dayLabels = r2.dayLabels ∧ r.dayValues = r2.dayValues := by
  refine ⟨(dashboard dbW 1 {}).get (by with_unfolding_all decide),
    (dashboard dbW 1 pC1).get (by with_unfolding_all decide),
    by with_unfolding_all decide, by with_unfolding_all decide, ?_⟩
  exact (dashboard_aggregates dbW 1 {} pC1 _ _ (by with_unfolding_all decide)
    (by with_unfolding_all decide)).1
